import Mathlib

/-!
Shallow embedding of the LeviathanBuild controller
(`jobrunner/internal/controller/leviathanbuild_controller.go`) together with
the API types it manipulates (`jobrunner/api/v1/leviathanbuild_types.go`).

The Go controller reconciles a `LeviathanBuild` custom resource against a
single owned batch `Job`.  One reconcile pass performs a bounded, straight-line
sequence of cluster calls (two reads, then at most one delete, one create and
one status update), so a pass is embedded as a pure function from the
cluster's responses (a `ClientEnv`) to the pass's outcome: the returned
result/error pair, the list of write operations the pass issued, in order,
and the branch of the decision logic that was taken.
-/

namespace JR

/-- Errors returned by the cluster API, as the controller distinguishes them:
`apierrors.IsNotFound` selects `notFound`, `apierrors.IsAlreadyExists` selects
`alreadyExists`, everything else is opaque. -/
inductive ApiError where
  | notFound
  | alreadyExists
  | other (msg : String)
deriving DecidableEq

/-- Models `apierrors.IsNotFound`. -/
def ApiError.isNotFound : ApiError → Bool
  | .notFound => true
  | _ => false

/-- Models `client.IgnoreNotFound`: drops the error exactly when it is a
not-found error. -/
def ignoreNotFound (e : ApiError) : Option ApiError :=
  if e.isNotFound then none else some e

/-- Models `k8s.io/apimachinery/pkg/api/resource.Quantity`: a numeric value
together with the textual format it was parsed from.  Two quantities with the
same numeric value can carry different formats (for example `1` and
`1000m`). -/
structure Quantity where
  milliValue : Int
  format : String
deriving DecidableEq

/-- The custom equality that `equality.Semantic` registers for quantities:
`a.Cmp(b) == 0`, i.e. numeric comparison ignoring the textual format. -/
def quantitySemanticEq (a b : Quantity) : Bool :=
  a.milliValue == b.milliValue

/-- The execution spec of a batch Job, restricted to the shape the claims
exercise: an opaque pod-template payload, an optional pointer-valued field
that the cluster's defaulting fills in (`backoffLimit`, default 6, is the
canonical example: `*int32`, `nil` when the author omitted it), and an
optional resource quantity. -/
structure JobSpec where
  template : String
  backoffLimit : Option Int
  resourceRequest : Option Quantity
deriving DecidableEq

/-- Models `equality.Semantic.DeepEqual` specialized to `JobSpec`: reflect-style
deep structural equality on every field, except that quantities are compared by
the registered custom equality (numeric value only).  `Semantic` registers
custom equalities only for `resource.Quantity`, `metav1.Time`/`MicroTime` and
label/field selectors; in particular a `nil` pointer field and a pointer to the
defaulted value are unequal. -/
def semanticDeepEqualJobSpec (a b : JobSpec) : Bool :=
  a.template == b.template &&
  a.backoffLimit == b.backoffLimit &&
  (match a.resourceRequest, b.resourceRequest with
   | none, none => true
   | some x, some y => quantitySemanticEq x y
   | _, _ => false)

/-- Models `metav1.OwnerReference`, with `controller` and `blockOwnerDeletion`
as plain booleans (`nil` pointer read as `false`). -/
structure OwnerReference where
  apiVersion : String
  kind : String
  name : String
  uid : String
  controller : Bool
  blockOwnerDeletion : Bool
deriving DecidableEq

/-- Models `metav1.ObjectMeta` restricted to the fields the controller touches.
`annots` stands for the Go `Annotations` map, `ns` for `Namespace`. -/
structure ObjectMeta where
  name : String
  ns : String
  labels : List (String × String)
  annots : List (String × String)
  ownerReferences : List OwnerReference
deriving DecidableEq

/-- Models `batchv1.Job`: object metadata plus the execution spec. -/
structure Job where
  metadata : ObjectMeta
  spec : JobSpec
deriving DecidableEq

/-- Models `metav1.Condition` on the resource's status. -/
structure StatusCondition where
  condType : String
  condStatus : String
deriving DecidableEq

/-- Models `LeviathanBuildStatus` (`leviathanbuild_types.go`): active job
references, the last job time, and conditions. -/
structure LeviathanBuildStatus where
  active : List String
  lastJobTime : Option Int
  conditions : List StatusCondition
deriving DecidableEq

/-- Models the embedded job template the controller reads at
`lvBuild.Spec.JobTemplate`: labels, annotations and an execution spec. -/
structure JobTemplateSpec where
  labels : List (String × String)
  annots : List (String × String)
  spec : JobSpec
deriving DecidableEq

/-- Models `LeviathanBuildSpec` restricted to the fields the controller reads,
with the remaining declared fields (`leviathanbuild_types.go`) kept as opaque
data: `packageName`, `buildType`, `sourceType` and the embedded job
template. -/
structure LeviathanBuildSpec where
  packageName : String
  buildType : String
  sourceType : String
  jobTemplate : JobTemplateSpec
deriving DecidableEq

/-- Models the `LeviathanBuild` custom resource: identity, spec, status. -/
structure LeviathanBuild where
  name : String
  ns : String
  uid : String
  spec : LeviathanBuildSpec
  status : LeviathanBuildStatus
deriving DecidableEq

/-- Models `ctrl.Request`: the namespaced name the pass was triggered for. -/
structure Request where
  name : String
  ns : String
deriving DecidableEq

/-- Models `jcrsv1.GroupVersion.String()` (`apiGVStr` in the controller):
group `jcrs.jcrs.dev`, version `v1`. -/
def apiGVStr : String := "jcrs.jcrs.dev/v1"

/-- The kind string the controller matches owners against. -/
def lvBuildKind : String := "LeviathanBuild"

/-- Models `time.Time\x7b\x7d.Unix()`: the zero time is January 1, year 1,
00:00:00 UTC, whose Unix-seconds value is -62135596800. -/
def zeroTimeUnix : Int := -62135596800

/-- The job-name derivation `fmt.Sprintf("%s-%d", name, t)` with the resource
name and a nominal trigger timestamp in Unix seconds. -/
def jobNameFor (resourceName : String) (nominalUnixSeconds : Int) : String :=
  resourceName ++ "-" ++ toString nominalUnixSeconds

/-- The name the controller actually derives
(`fmt.Sprintf("%s-%d", lvBuild.Name, time.Time\x7b\x7d.Unix())`,
line 102): the nominal timestamp is always the zero time. -/
def constructedJobName (resourceName : String) : String :=
  jobNameFor resourceName zeroTimeUnix

/-- Models `ctrl.SetControllerReference(lvBuild, job, r.Scheme)`: when the
owner's kind is registered in the scheme (`schemeOk`), stamps the child with a
controller-owner reference to the owner (controller and blockOwnerDeletion
true); a child already controller-owned by a different object is rejected
with an already-owned error; a scheme lookup failure is an error. -/
def setControllerReference (owner : LeviathanBuild) (child : Job)
    (schemeOk : Bool) : Except ApiError Job :=
  if !schemeOk then
    .error (.other "no kind is registered for the owner type in scheme")
  else
    let ref : OwnerReference :=
      { apiVersion := apiGVStr, kind := lvBuildKind, name := owner.name,
        uid := owner.uid, controller := true, blockOwnerDeletion := true }
    match child.metadata.ownerReferences.find? (fun r => r.controller) with
    | some existing =>
      if existing.name == owner.name && existing.uid == owner.uid &&
         existing.kind == lvBuildKind && existing.apiVersion == apiGVStr then
        .ok { child with metadata :=
          { child.metadata with ownerReferences := [ref] } }
      else
        .error (.other "object is already owned by another controller")
    | none =>
      .ok { child with metadata :=
        { child.metadata with
            ownerReferences := child.metadata.ownerReferences ++ [ref] } }

instance {ε α : Type} [DecidableEq ε] [DecidableEq α] : DecidableEq (Except ε α) :=
  fun a b =>
    match a, b with
    | .ok x, .ok y =>
      if h : x = y then .isTrue (congrArg _ h)
      else .isFalse (fun hh => h (Except.ok.inj hh))
    | .error x, .error y =>
      if h : x = y then .isTrue (congrArg _ h)
      else .isFalse (fun hh => h (Except.error.inj hh))
    | .ok _, .error _ => .isFalse (fun hh => Except.noConfusion hh)
    | .error _, .ok _ => .isFalse (fun hh => Except.noConfusion hh)

/-- Models the cluster's responses to the bounded sequence of calls one
reconcile pass can make, plus the pass's wall clock (`now`, which the Go code
never reads: the name derivation uses the zero time) and whether the scheme
lookup inside `SetControllerReference` succeeds. -/
structure ClientEnv where
  getLvBuild : Except ApiError LeviathanBuild
  getJob : Except ApiError Job
  createResult : Except ApiError Unit
  deleteResult : Except ApiError Unit
  statusUpdateResult : Except ApiError Unit
  schemeOk : Bool
  now : Int
deriving DecidableEq

/-- Models `constructJobForLeviathanBuild` (lines 100-124): derive the
deterministic name from the resource name and the zero timestamp, build a job
in the resource's namespace whose labels and annotations are copied from the
template into fresh maps and whose spec is a deep copy of the template's spec,
then attach the controller-owner reference.  The pass's clock `now` is taken
as an argument to record that the derivation does not depend on it. -/
def constructJobForLeviathanBuild (lvBuild : LeviathanBuild)
    (schemeOk : Bool) (_now : Int) : Except ApiError Job :=
  let name := constructedJobName lvBuild.name
  let job : Job :=
    { metadata :=
        { name := name
          ns := lvBuild.ns
          labels := lvBuild.spec.jobTemplate.labels
          annots := lvBuild.spec.jobTemplate.annots
          ownerReferences := [] }
      spec := lvBuild.spec.jobTemplate.spec }
  setControllerReference lvBuild job schemeOk

/-- Models `jobSpecsEqual` (lines 42-45): semantic deep equality between the
existing job's spec and the desired spec.  Only the specs are compared; the
existing job's metadata is not an input to the comparison. -/
def jobSpecsEqual (existing : Job) (desired : JobSpec) : Bool :=
  semanticDeepEqualJobSpec existing.spec desired

/-- A write operation the pass issues against the cluster, in issue order. -/
inductive Op where
  | createJob (j : Job)
  | deleteJob (j : Job)
  | statusUpdate (b : LeviathanBuild)
deriving DecidableEq

/-- Models `ctrl.Result`: either no requeue or a requeue after a duration in
seconds. -/
structure RResult where
  requeueAfter : Option Nat
deriving DecidableEq

/-- Models `time.Minute` as used in `ctrl.Result\x7bRequeueAfter: time.Minute\x7d`,
in seconds. -/
def requeueIntervalSeconds : Nat := 60

/-- The branch of the reconcile decision logic a pass ended up in. -/
inductive RPath where
  | absent
  | resourceGetFailed
  | noJob
  | jobGetFailed
  | mismatch
  | matched
deriving DecidableEq

/-- Everything one reconcile pass produces: the returned result and error,
the ordered list of writes it issued, and the branch taken. -/
structure ReconcileOutput where
  result : RResult
  error : Option ApiError
  ops : List Op
  path : RPath
deriving DecidableEq

/-- Models `Reconcile` (lines 64-194), translated branch by branch:
fetch the resource (not-found is success, other errors propagate); fetch the
job under the request's own namespaced name; if not found, construct and
create a job and requeue after a minute (construction errors end the pass
with no error and no requeue, create errors propagate); if found and the
specs differ, delete the existing job, then construct and create a
replacement and requeue after a minute (same error handling); if found and
the specs match, fall through to the status update of the resource exactly
as it was fetched. -/
def reconcile (env : ClientEnv) (_req : Request) : ReconcileOutput :=
  match env.getLvBuild with
  | .error e =>
    if e.isNotFound then
      { result := { requeueAfter := none }, error := none, ops := [],
        path := .absent }
    else
      { result := { requeueAfter := none }, error := ignoreNotFound e,
        ops := [], path := .resourceGetFailed }
  | .ok lvBuild =>
    match env.getJob with
    | .error e =>
      if e.isNotFound then
        match constructJobForLeviathanBuild lvBuild env.schemeOk env.now with
        | .error _ =>
          { result := { requeueAfter := none }, error := none, ops := [],
            path := .noJob }
        | .ok job =>
          match env.createResult with
          | .error ce =>
            { result := { requeueAfter := none }, error := some ce,
              ops := [.createJob job], path := .noJob }
          | .ok _ =>
            { result := { requeueAfter := some requeueIntervalSeconds },
              error := none, ops := [.createJob job], path := .noJob }
      else
        { result := { requeueAfter := none }, error := some e, ops := [],
          path := .jobGetFailed }
    | .ok existingJob =>
      if jobSpecsEqual existingJob lvBuild.spec.jobTemplate.spec then
        match env.statusUpdateResult with
        | .error ue =>
          { result := { requeueAfter := none }, error := some ue,
            ops := [.statusUpdate lvBuild], path := .matched }
        | .ok _ =>
          { result := { requeueAfter := none }, error := none,
            ops := [.statusUpdate lvBuild], path := .matched }
      else
        match env.deleteResult with
        | .error de =>
          { result := { requeueAfter := none }, error := some de,
            ops := [.deleteJob existingJob], path := .mismatch }
        | .ok _ =>
          match constructJobForLeviathanBuild lvBuild env.schemeOk env.now with
          | .error _ =>
            { result := { requeueAfter := none }, error := none,
              ops := [.deleteJob existingJob], path := .mismatch }
          | .ok job =>
            match env.createResult with
            | .error ce =>
              { result := { requeueAfter := none }, error := some ce,
                ops := [.deleteJob existingJob, .createJob job],
                path := .mismatch }
            | .ok _ =>
              { result := { requeueAfter := some requeueIntervalSeconds },
                error := none,
                ops := [.deleteJob existingJob, .createJob job],
                path := .mismatch }

/-- Models `metav1.GetControllerOf`: the owner reference flagged as
controller, when one exists. -/
def getControllerOf (j : Job) : Option OwnerReference :=
  j.metadata.ownerReferences.find? (fun r => r.controller)

/-- Models the field-index extractor registered in `SetupWithManager`
(lines 217-231): extract the controller owner; if there is none, or its
API version or kind do not match the LeviathanBuild type, index nothing;
otherwise index the job under the owner's name. -/
def jobOwnerIndexExtract (j : Job) : List String :=
  match getControllerOf j with
  | none => []
  | some owner =>
    if owner.apiVersion != apiGVStr || owner.kind != lvBuildKind then []
    else [owner.name]

/-- Applying one write to the set of live jobs in the cluster: create adds
the job, delete removes the jobs with its namespaced name, a status update
does not touch jobs. -/
def applyOp (jobs : List Job) : Op → List Job
  | .createJob j => jobs ++ [j]
  | .deleteJob j =>
    jobs.filter (fun x =>
      !(x.metadata.name == j.metadata.name && x.metadata.ns == j.metadata.ns))
  | .statusUpdate _ => jobs

/-- Applying a list of writes left to right. -/
def applyOps (jobs : List Job) (ops : List Op) : List Job :=
  ops.foldl applyOp jobs

/-- No two live jobs share a name-derivation key (namespaced name). -/
def uniqueJobKeys (jobs : List Job) : Prop :=
  jobs.Pairwise (fun a b =>
    ¬(a.metadata.name = b.metadata.name ∧ a.metadata.ns = b.metadata.ns))

/-- The existing-job fetch of a pass, resolved against a cluster: the job
whose namespaced name equals the request key, when one is live. -/
def getJobByKey (jobs : List Job) (req : Request) : Option Job :=
  jobs.find? (fun j => j.metadata.name == req.name && j.metadata.ns == req.ns)

/-- Boolean test for a create among the issued writes. -/
def opsHasCreate (ops : List Op) : Bool :=
  ops.any (fun o => match o with | .createJob _ => true | _ => false)

/-- Boolean test for a delete among the issued writes. -/
def opsHasDelete (ops : List Op) : Bool :=
  ops.any (fun o => match o with | .deleteJob _ => true | _ => false)

/-- Boolean test for a status update among the issued writes. -/
def opsHasStatusUpdate (ops : List Op) : Bool :=
  ops.any (fun o => match o with | .statusUpdate _ => true | _ => false)

/-- The job the constructor produces for a resource when the scheme lookup
succeeds: deterministic name, resource namespace, template labels,
annotations and spec, and a single controller-owner reference to the
resource. -/
def constructedJobFor (b : LeviathanBuild) : Job :=
  { metadata :=
      { name := constructedJobName b.name
        ns := b.ns
        labels := b.spec.jobTemplate.labels
        annots := b.spec.jobTemplate.annots
        ownerReferences :=
          [{ apiVersion := apiGVStr, kind := lvBuildKind, name := b.name,
             uid := b.uid, controller := true, blockOwnerDeletion := true }] }
    spec := b.spec.jobTemplate.spec }

/-! Concrete fixtures used by witnesses and counterexamples. -/

/-- A template execution spec as a user writes it: optional fields absent. -/
def specA : JobSpec :=
  { template := "pod-a", backoffLimit := none, resourceRequest := none }

/-- A different execution spec. -/
def specB : JobSpec :=
  { template := "pod-b", backoffLimit := none, resourceRequest := none }

/-- The job template embedded in the sample resource. -/
def tmplA : JobTemplateSpec :=
  { labels := [("app", "leviathan")], annots := [("note", "demo")],
    spec := specA }

/-- A sample resource named `demo`. -/
def buildA : LeviathanBuild :=
  { name := "demo", ns := "default", uid := "uid-1",
    spec := { packageName := "pkg", buildType := "Build",
              sourceType := "Local", jobTemplate := tmplA },
    status := { active := [], lastJobTime := none, conditions := [] } }

/-- The request key for the sample resource. -/
def reqA : Request := { name := "demo", ns := "default" }

/-- A job living under the request key whose spec matches the template. -/
def jobA : Job :=
  { metadata := { name := "demo", ns := "default", labels := [], annots := [],
                  ownerReferences := [] },
    spec := specA }

/-- A job living under the request key whose spec differs from the template. -/
def jobB : Job := { jobA with spec := specB }

/-- Cluster responses for a pass where no job exists and every write
succeeds. -/
def envNoJob : ClientEnv :=
  { getLvBuild := .ok buildA, getJob := .error .notFound,
    createResult := .ok (), deleteResult := .ok (),
    statusUpdateResult := .ok (), schemeOk := true, now := 1700000000 }

/-- Same cluster, but the fetch finds the mismatching job. -/
def envMismatch : ClientEnv := { envNoJob with getJob := .ok jobB }

/-- Same cluster, but the fetch finds the matching job. -/
def envMatch : ClientEnv := { envNoJob with getJob := .ok jobA }

/-- The execution spec of the same job after the cluster's defaulting has
filled in the absent optional field with its default value (backoffLimit
defaults to 6). -/
def specDefaulted : JobSpec :=
  { template := "pod-a", backoffLimit := some 6, resourceRequest := none }

/-- The live job as the cluster stores it: template spec normalized by
defaulting. -/
def jobDefaulted : Job := { metadata := jobA.metadata, spec := specDefaulted }

/-- The matching job under a different identity: same spec, other metadata. -/
def jobAltMeta : Job :=
  { metadata := { name := "demo--62135596800", ns := "default",
                  labels := [("app", "leviathan")], annots := [],
                  ownerReferences := [] },
    spec := specA }

/-- A controller-owner reference matching the LeviathanBuild type. -/
def refDemo : OwnerReference :=
  { apiVersion := apiGVStr, kind := lvBuildKind, name := "demo",
    uid := "uid-1", controller := true, blockOwnerDeletion := true }

/-- A controller-owner reference of a foreign kind and API group. -/
def refOther : OwnerReference :=
  { apiVersion := "batch/v1", kind := "CronJob", name := "other",
    uid := "uid-2", controller := true, blockOwnerDeletion := false }

/-- A job controller-owned by the sample resource. -/
def jobOwned : Job :=
  { metadata := { jobA.metadata with ownerReferences := [refDemo] },
    spec := specA }

/-- A job controller-owned by a foreign controller. -/
def jobOtherOwner : Job :=
  { metadata := { jobA.metadata with ownerReferences := [refOther] },
    spec := specA }

/-- Cluster responses for a pass whose create fails because the derived-name
job already exists in the cluster. -/
def envAlreadyExists : ClientEnv :=
  { envNoJob with createResult := .error .alreadyExists }

/-- The live jobs right after a controller create succeeded on some earlier
pass: exactly the derived-name job for the sample resource. -/
def clusterAfterCreate : List Job := [constructedJobFor buildA]

/-- The next pass's responses resolved against that cluster: the existing-job
fetch under the request key misses the derived-name job, and the create of
the same derived name fails with already-exists. -/
def envRepeat : ClientEnv :=
  { getLvBuild := .ok buildA,
    getJob :=
      match getJobByKey clusterAfterCreate reqA with
      | some j => .ok j
      | none => .error .notFound,
    createResult := .error .alreadyExists,
    deleteResult := .ok (), statusUpdateResult := .ok (),
    schemeOk := true, now := 1700000060 }

lemma construct_ok (b : LeviathanBuild) (n : Int) :
    constructJobForLeviathanBuild b true n = .ok (constructedJobFor b) := rfl

lemma construct_err (b : LeviathanBuild) (n : Int) :
    constructJobForLeviathanBuild b false n =
      .error (.other "no kind is registered for the owner type in scheme") := rfl

lemma construct_name {b : LeviathanBuild} {s : Bool} {n : Int} {j : Job}
    (h : constructJobForLeviathanBuild b s n = .ok j) :
    j.metadata.name = constructedJobName b.name := by
  cases s
  · rw [construct_err] at h
    exact absurd h (by simp)
  · rw [construct_ok] at h
    cases h
    rfl

/-- Fully successful no-job pass: the only write is the create of the
constructed job, the pass requeues after the fixed interval with no error. -/
lemma reconcile_noJob_ok {env : ClientEnv} {req : Request} {b : LeviathanBuild}
    (hb : env.getLvBuild = .ok b)
    (hj : env.getJob = .error .notFound)
    (hs : env.schemeOk = true)
    (hc : env.createResult = .ok ()) :
    reconcile env req =
      { result := { requeueAfter := some requeueIntervalSeconds },
        error := none, ops := [.createJob (constructedJobFor b)],
        path := .noJob } := by
  simp only [reconcile, hb, hj, ApiError.isNotFound, hs, construct_ok, hc,
    if_true]

/-- Fully successful mismatch pass: the writes are the delete of the existing
job followed by the create of the constructed job, the pass requeues after
the fixed interval with no error. -/
lemma reconcile_mismatch_ok {env : ClientEnv} {req : Request}
    {b : LeviathanBuild} {ej : Job}
    (hb : env.getLvBuild = .ok b)
    (hj : env.getJob = .ok ej)
    (hne : jobSpecsEqual ej b.spec.jobTemplate.spec = false)
    (hd : env.deleteResult = .ok ())
    (hs : env.schemeOk = true)
    (hc : env.createResult = .ok ()) :
    reconcile env req =
      { result := { requeueAfter := some requeueIntervalSeconds },
        error := none,
        ops := [.deleteJob ej, .createJob (constructedJobFor b)],
        path := .mismatch } := by
  simp only [reconcile, hb, hj, hne, hd, hs, construct_ok, hc,
    Bool.false_eq_true, if_false]

/-- Matching pass: independently of how the status update turns out, the only
write is the status update of the resource exactly as it was fetched. -/
lemma reconcile_matched_ops {env : ClientEnv} {req : Request}
    {b : LeviathanBuild} {ej : Job}
    (hb : env.getLvBuild = .ok b)
    (hj : env.getJob = .ok ej)
    (heq : jobSpecsEqual ej b.spec.jobTemplate.spec = true) :
    (reconcile env req).ops = [.statusUpdate b] ∧
    (reconcile env req).path = .matched := by
  cases hu : env.statusUpdateResult with
  | error ue => simp [reconcile, hb, hj, heq, hu]
  | ok u => simp [reconcile, hb, hj, heq, hu]

/-- C1: when the resource exists and the existing-job fetch under the request
key reports not-found, the pass issues exactly one write, the create of a job
synthesized from the resource's template: its execution spec equals the
synthesized desired spec, its single controller-owner reference names the
resource, and the pass returns a requeue after the fixed interval with no
error. -/
theorem c1_create_when_absent (env : ClientEnv) (req : Request)
    (b : LeviathanBuild)
    (hb : env.getLvBuild = .ok b)
    (hj : env.getJob = .error .notFound)
    (hs : env.schemeOk = true)
    (hc : env.createResult = .ok ()) :
    ∃ j : Job,
      (reconcile env req).ops = [.createJob j] ∧
      j.spec = b.spec.jobTemplate.spec ∧
      (∃ ref : OwnerReference,
        j.metadata.ownerReferences = [ref] ∧ ref.name = b.name ∧
        ref.controller = true) ∧
      (reconcile env req).result.requeueAfter = some requeueIntervalSeconds ∧
      (reconcile env req).error = none := by
  rw [reconcile_noJob_ok hb hj hs hc]
  exact ⟨constructedJobFor b, rfl, rfl, ⟨_, rfl, rfl, rfl⟩, rfl, rfl⟩

theorem c1_create_when_absent_witness :
    envNoJob.getLvBuild = .ok buildA ∧
    envNoJob.getJob = .error .notFound ∧
    envNoJob.schemeOk = true ∧
    envNoJob.createResult = .ok () ∧
    (∃ j : Job,
      (reconcile envNoJob reqA).ops = [.createJob j] ∧
      j.spec = buildA.spec.jobTemplate.spec ∧
      (∃ ref : OwnerReference,
        j.metadata.ownerReferences = [ref] ∧ ref.name = buildA.name ∧
        ref.controller = true) ∧
      (reconcile envNoJob reqA).result.requeueAfter =
        some requeueIntervalSeconds ∧
      (reconcile envNoJob reqA).error = none) :=
  ⟨rfl, rfl, rfl, rfl,
   c1_create_when_absent envNoJob reqA buildA rfl rfl rfl rfl⟩

/-- C10: job synthesis is deterministic and its derived name is a single
fixed value per resource name: the constructor's output does not depend on
the pass's clock at all, and any job it returns carries the name derived
from the resource name and the zero timestamp. -/
theorem c10_deterministic_constant_naming (b : LeviathanBuild) (s : Bool)
    (n1 n2 : Int) :
    constructJobForLeviathanBuild b s n1 = constructJobForLeviathanBuild b s n2 ∧
    (∀ j : Job, constructJobForLeviathanBuild b s n1 = .ok j →
      j.metadata.name = jobNameFor b.name zeroTimeUnix) ∧
    jobNameFor b.name zeroTimeUnix = constructedJobName b.name := by
  refine ⟨rfl, ?_, rfl⟩
  intro j hj
  exact construct_name hj

theorem c10_deterministic_constant_naming_witness :
    constructJobForLeviathanBuild buildA true 5 =
      constructJobForLeviathanBuild buildA true 99 ∧
    (constructedJobFor buildA).metadata.name =
      jobNameFor buildA.name zeroTimeUnix :=
  ⟨(c10_deterministic_constant_naming buildA true 5 99).1,
   (c10_deterministic_constant_naming buildA true 5 99).2.1
     (constructedJobFor buildA) rfl⟩

lemma constructedJobName_ne (r : String) : constructedJobName r ≠ r := by
  intro h
  have hl : (constructedJobName r).length = r.length := congrArg String.length h
  rw [constructedJobName, jobNameFor, String.length_append,
    String.length_append] at hl
  have h1 : ("-" : String).length = 1 := by decide
  have h2 : (toString zeroTimeUnix).length = 12 := by decide
  omega

lemma reconcile_create_name {env : ClientEnv} {req : Request}
    {b : LeviathanBuild} (hb : env.getLvBuild = .ok b) :
    ∀ j : Job, Op.createJob j ∈ (reconcile env req).ops →
      j.metadata.name = constructedJobName b.name := by
  intro j hmem
  cases hgj : env.getJob with
  | error e =>
    cases e with
    | notFound =>
      cases hcon : constructJobForLeviathanBuild b env.schemeOk env.now with
      | error _ => simp [reconcile, hb, hgj, ApiError.isNotFound, hcon] at hmem
      | ok jc =>
        cases hcr : env.createResult with
        | error ce =>
          simp [reconcile, hb, hgj, ApiError.isNotFound, hcon, hcr] at hmem
          rw [hmem]
          exact construct_name hcon
        | ok u =>
          simp [reconcile, hb, hgj, ApiError.isNotFound, hcon, hcr] at hmem
          rw [hmem]
          exact construct_name hcon
    | alreadyExists =>
      simp [reconcile, hb, hgj, ApiError.isNotFound] at hmem
    | other msg =>
      simp [reconcile, hb, hgj, ApiError.isNotFound] at hmem
  | ok ej =>
    cases heq : jobSpecsEqual ej b.spec.jobTemplate.spec with
    | true =>
      cases hu : env.statusUpdateResult with
      | error ue => simp [reconcile, hb, hgj, heq, hu] at hmem
      | ok u => simp [reconcile, hb, hgj, heq, hu] at hmem
    | false =>
      cases hd : env.deleteResult with
      | error de => simp [reconcile, hb, hgj, heq, hd] at hmem
      | ok u =>
        cases hcon : constructJobForLeviathanBuild b env.schemeOk env.now with
        | error _ => simp [reconcile, hb, hgj, heq, hd, hcon] at hmem
        | ok jc =>
          cases hcr : env.createResult with
          | error ce =>
            simp [reconcile, hb, hgj, heq, hd, hcon, hcr] at hmem
            rw [hmem]
            exact construct_name hcon
          | ok u2 =>
            simp [reconcile, hb, hgj, heq, hd, hcon, hcr] at hmem
            rw [hmem]
            exact construct_name hcon

/-- C4: the name the controller gives a job is the resource's name followed
by `-` and the Unix seconds of the zero time, which is never the bare
resource name; so every job a pass creates carries a name different from the
request key, and a fetch under the request key over jobs that all carry the
controller-derived name comes back empty — the match and mismatch branches
are unreachable for controller-created jobs. -/
theorem c4_constant_name_never_request_key (env : ClientEnv) (req : Request)
    (b : LeviathanBuild)
    (hb : env.getLvBuild = .ok b)
    (hname : b.name = req.name) :
    constructedJobName req.name ≠ req.name ∧
    (∀ j : Job, Op.createJob j ∈ (reconcile env req).ops →
      j.metadata.name = constructedJobName req.name ∧
      j.metadata.name ≠ req.name) ∧
    (∀ jobs : List Job,
      (∀ j ∈ jobs, j.metadata.name = constructedJobName req.name) →
      getJobByKey jobs req = none) := by
  refine ⟨constructedJobName_ne req.name, ?_, ?_⟩
  · intro j hmem
    have h1 := reconcile_create_name hb j hmem
    rw [hname] at h1
    exact ⟨h1, by rw [h1]; exact constructedJobName_ne req.name⟩
  · intro jobs hall
    rw [getJobByKey, List.find?_eq_none]
    intro x hx
    simp only [Bool.and_eq_true, beq_iff_eq, not_and]
    intro h1
    exact (constructedJobName_ne req.name (by rw [← hall x hx, h1])).elim

theorem c4_constant_name_never_request_key_witness :
    buildA.name = reqA.name ∧
    constructedJobName reqA.name ≠ reqA.name ∧
    getJobByKey [constructedJobFor buildA] reqA = none :=
  ⟨rfl,
   (c4_constant_name_never_request_key envNoJob reqA buildA rfl rfl).1,
   (c4_constant_name_never_request_key envNoJob reqA buildA rfl rfl).2.2
     [constructedJobFor buildA]
     (by intro j hj
         rw [List.mem_singleton] at hj
         rw [hj]
         rfl)⟩

/-- C2: on the mismatch path, the pass issues exactly two writes, the delete
of the existing job strictly before the create of a single replacement whose
spec equals the desired spec, requeues after the same fixed interval as the
create-when-absent path with no error; and replaying the writes in issue
order over the live jobs for the resource never exhibits two jobs with the
same name-derivation key at once. -/
theorem c2_replace_on_mismatch (env : ClientEnv) (req : Request)
    (b : LeviathanBuild) (ej : Job)
    (hb : env.getLvBuild = .ok b)
    (hj : env.getJob = .ok ej)
    (hne : jobSpecsEqual ej b.spec.jobTemplate.spec = false)
    (hd : env.deleteResult = .ok ())
    (hs : env.schemeOk = true)
    (hc : env.createResult = .ok ()) :
    (∃ j : Job,
      (reconcile env req).ops = [.deleteJob ej, .createJob j] ∧
      j.spec = b.spec.jobTemplate.spec) ∧
    (reconcile env req).result.requeueAfter = some requeueIntervalSeconds ∧
    (reconcile env req).error = none ∧
    (∀ k : Nat, k ≤ ((reconcile env req).ops).length →
      uniqueJobKeys (applyOps [ej] (((reconcile env req).ops).take k))) := by
  rw [reconcile_mismatch_ok hb hj hne hd hs hc]
  refine ⟨⟨constructedJobFor b, rfl, rfl⟩, rfl, rfl, ?_⟩
  intro k hk
  simp only [List.length_cons, List.length_nil] at hk
  interval_cases k
  all_goals simp [applyOps, applyOp, uniqueJobKeys]

theorem c2_replace_on_mismatch_witness :
    envMismatch.getLvBuild = .ok buildA ∧
    envMismatch.getJob = .ok jobB ∧
    jobSpecsEqual jobB buildA.spec.jobTemplate.spec = false ∧
    (∃ j : Job,
      (reconcile envMismatch reqA).ops = [.deleteJob jobB, .createJob j] ∧
      j.spec = buildA.spec.jobTemplate.spec) ∧
    (reconcile envMismatch reqA).result.requeueAfter =
      some requeueIntervalSeconds :=
  ⟨rfl, rfl, by decide,
   (c2_replace_on_mismatch envMismatch reqA buildA jobB rfl rfl (by decide)
     rfl rfl rfl).1,
   (c2_replace_on_mismatch envMismatch reqA buildA jobB rfl rfl (by decide)
     rfl rfl rfl).2.1⟩

/-- C3: on the match path the pass issues no create and no delete against
the job; its only write is the status update of the resource. -/
theorem c3_noop_when_matching (env : ClientEnv) (req : Request)
    (b : LeviathanBuild) (ej : Job)
    (hb : env.getLvBuild = .ok b)
    (hj : env.getJob = .ok ej)
    (heq : jobSpecsEqual ej b.spec.jobTemplate.spec = true) :
    (reconcile env req).ops = [.statusUpdate b] ∧
    opsHasCreate (reconcile env req).ops = false ∧
    opsHasDelete (reconcile env req).ops = false := by
  have h := (@reconcile_matched_ops env req b ej hb hj heq).1
  rw [h]
  exact ⟨rfl, rfl, rfl⟩

theorem c3_noop_when_matching_witness :
    envMatch.getLvBuild = .ok buildA ∧
    envMatch.getJob = .ok jobA ∧
    jobSpecsEqual jobA buildA.spec.jobTemplate.spec = true ∧
    (reconcile envMatch reqA).ops = [.statusUpdate buildA] ∧
    opsHasCreate (reconcile envMatch reqA).ops = false ∧
    opsHasDelete (reconcile envMatch reqA).ops = false := by
  refine ⟨rfl, rfl, by decide, ?_⟩
  exact c3_noop_when_matching envMatch reqA buildA jobA rfl rfl (by decide)

lemma reconcile_path_of_getJob_ok {env : ClientEnv} {req : Request}
    {b : LeviathanBuild} {j : Job}
    (hb : env.getLvBuild = .ok b) (hj : env.getJob = .ok j) :
    (reconcile env req).path = .matched ∨
    (reconcile env req).path = .mismatch := by
  cases heq : jobSpecsEqual j b.spec.jobTemplate.spec with
  | true => exact .inl (reconcile_matched_ops hb hj heq).2
  | false =>
    right
    cases hd : env.deleteResult with
    | error de => simp [reconcile, hb, hj, heq, hd]
    | ok u =>
      cases hcon : constructJobForLeviathanBuild b env.schemeOk env.now with
      | error _ => simp [reconcile, hb, hj, heq, hd, hcon]
      | ok jc =>
        cases hcr : env.createResult with
        | error ce => simp [reconcile, hb, hj, heq, hd, hcon, hcr]
        | ok u2 => simp [reconcile, hb, hj, heq, hd, hcon, hcr]

/-- C6 counterexample: with the controller-created job live in the cluster
(the exact state an already-exists create failure certifies), the next
pass's existing-job fetch under the request key still reports not-found, so
the pass re-enters the no-job branch, repeats the create and surfaces
already-exists again — it does not fold into the match or mismatch path. -/
theorem c6_counterexample :
    getJobByKey clusterAfterCreate reqA = none ∧
    (reconcile envRepeat reqA).path = .noJob ∧
    (reconcile envRepeat reqA).error = some .alreadyExists ∧
    opsHasCreate (reconcile envRepeat reqA).ops = true ∧
    ¬((reconcile envRepeat reqA).path = .matched ∨
      (reconcile envRepeat reqA).path = .mismatch) := by decide

/-- C6 (amended): an already-exists create failure is propagated to the
dispatcher as an ordinary retryable error, with no requeue of the pass's
own; but a cluster whose jobs for the resource all carry the
controller-derived name keeps answering not-found to the fetch under the
request key, so the retried pass re-enters the no-job branch and repeats the
failing create with the same error; the pass folds into the match-or-mismatch
path only when a job actually sits at the request key itself. -/
theorem c6_already_exists_repeats_not_folds (env1 env2 : ClientEnv)
    (req : Request) (b : LeviathanBuild)
    (hname : b.name = req.name)
    (hb1 : env1.getLvBuild = .ok b)
    (hj1 : env1.getJob = .error .notFound)
    (hs1 : env1.schemeOk = true)
    (hc1 : env1.createResult = .error .alreadyExists)
    (hb2 : env2.getLvBuild = .ok b) :
    (reconcile env1 req).error = some .alreadyExists ∧
    (reconcile env1 req).result.requeueAfter = none ∧
    (reconcile env1 req).path = .noJob ∧
    (∀ jobs : List Job,
      (∀ j ∈ jobs, j.metadata.name = constructedJobName b.name) →
      getJobByKey jobs req = none) ∧
    (env2.getJob = .error .notFound → env2.schemeOk = true →
      env2.createResult = .error .alreadyExists →
      (reconcile env2 req).path = .noJob ∧
      (reconcile env2 req).error = some .alreadyExists ∧
      opsHasCreate (reconcile env2 req).ops = true) ∧
    (∀ j : Job, env2.getJob = .ok j →
      (reconcile env2 req).path = .matched ∨
      (reconcile env2 req).path = .mismatch) := by
  refine ⟨?_, ?_, ?_, ?_, ?_, ?_⟩
  · simp [reconcile, hb1, hj1, ApiError.isNotFound, hs1, construct_ok, hc1]
  · simp [reconcile, hb1, hj1, ApiError.isNotFound, hs1, construct_ok, hc1]
  · simp [reconcile, hb1, hj1, ApiError.isNotFound, hs1, construct_ok, hc1]
  · intro jobs hall
    rw [getJobByKey, List.find?_eq_none]
    intro x hx
    simp only [Bool.and_eq_true, beq_iff_eq, not_and]
    intro h1
    have hcn : constructedJobName req.name = req.name := by
      rw [← hname, ← hall x hx, hname]
      exact h1
    exact (constructedJobName_ne req.name hcn).elim
  · intro hj2 hs2 hc2
    have hrec : reconcile env2 req =
        { result := { requeueAfter := none }, error := some .alreadyExists,
          ops := [.createJob (constructedJobFor b)], path := .noJob } := by
      simp [reconcile, hb2, hj2, ApiError.isNotFound, hs2, construct_ok, hc2]
    rw [hrec]
    exact ⟨rfl, rfl, rfl⟩
  · intro j hj2
    exact reconcile_path_of_getJob_ok hb2 hj2

theorem c6_already_exists_repeats_not_folds_witness :
    buildA.name = reqA.name ∧
    (reconcile envAlreadyExists reqA).error = some .alreadyExists ∧
    (reconcile envAlreadyExists reqA).result.requeueAfter = none ∧
    (reconcile envAlreadyExists reqA).path = .noJob ∧
    getJobByKey [constructedJobFor buildA] reqA = none ∧
    opsHasCreate (reconcile envAlreadyExists reqA).ops = true := by
  have h := c6_already_exists_repeats_not_folds envAlreadyExists
    envAlreadyExists reqA buildA rfl rfl rfl rfl rfl rfl
  exact ⟨rfl, h.1, h.2.1, h.2.2.1,
    h.2.2.2.1 [constructedJobFor buildA]
      (by intro j hj
          rw [List.mem_singleton] at hj
          rw [hj]
          rfl),
    (h.2.2.2.2.1 rfl rfl rfl).2.2⟩

/-- C8: when synthesis fails (the ownership-linking call is the only failure
source), the pass ends with no requeue and no propagated error: on the
no-job path without any write, on the mismatch path right after the
delete. -/
theorem c8_construction_error_terminal (env : ClientEnv) (req : Request)
    (b : LeviathanBuild) (ej : Job)
    (hb : env.getLvBuild = .ok b)
    (hs : env.schemeOk = false) :
    (env.getJob = .error .notFound →
      reconcile env req =
        { result := { requeueAfter := none }, error := none, ops := [],
          path := .noJob }) ∧
    (env.getJob = .ok ej →
      jobSpecsEqual ej b.spec.jobTemplate.spec = false →
      env.deleteResult = .ok () →
      reconcile env req =
        { result := { requeueAfter := none }, error := none,
          ops := [.deleteJob ej], path := .mismatch }) := by
  constructor
  · intro hj
    simp [reconcile, hb, hj, ApiError.isNotFound, hs, construct_err]
  · intro hj hne hd
    simp [reconcile, hb, hj, hne, hd, hs, construct_err]

theorem c8_construction_error_terminal_witness :
    ({ envNoJob with schemeOk := false } : ClientEnv).schemeOk = false ∧
    reconcile { envNoJob with schemeOk := false } reqA =
      { result := { requeueAfter := none }, error := none, ops := [],
        path := .noJob } ∧
    reconcile { envMismatch with schemeOk := false } reqA =
      { result := { requeueAfter := none }, error := none,
        ops := [.deleteJob jobB], path := .mismatch } :=
  ⟨rfl,
   (c8_construction_error_terminal { envNoJob with schemeOk := false } reqA
     buildA jobA rfl rfl).1 rfl,
   (c8_construction_error_terminal { envMismatch with schemeOk := false } reqA
     buildA jobB rfl rfl).2 rfl (by decide) rfl⟩

lemma reconcile_statusUpdate_only_matched {env : ClientEnv} {req : Request}
    {b : LeviathanBuild} (hb : env.getLvBuild = .ok b) :
    ∀ x : LeviathanBuild, Op.statusUpdate x ∈ (reconcile env req).ops →
      x = b ∧ (reconcile env req).ops = [.statusUpdate b] := by
  intro x hmem
  cases hgj : env.getJob with
  | error e =>
    cases e with
    | notFound =>
      cases hcon : constructJobForLeviathanBuild b env.schemeOk env.now with
      | error _ => simp [reconcile, hb, hgj, ApiError.isNotFound, hcon] at hmem
      | ok jc =>
        cases hcr : env.createResult with
        | error ce =>
          simp [reconcile, hb, hgj, ApiError.isNotFound, hcon, hcr] at hmem
        | ok u =>
          simp [reconcile, hb, hgj, ApiError.isNotFound, hcon, hcr] at hmem
    | alreadyExists =>
      simp [reconcile, hb, hgj, ApiError.isNotFound] at hmem
    | other msg =>
      simp [reconcile, hb, hgj, ApiError.isNotFound] at hmem
  | ok ej =>
    cases heq : jobSpecsEqual ej b.spec.jobTemplate.spec with
    | true =>
      have h := (@reconcile_matched_ops env req b ej hb hgj heq).1
      rw [h] at hmem
      rw [List.mem_singleton] at hmem
      cases hmem
      exact ⟨rfl, h⟩
    | false =>
      cases hd : env.deleteResult with
      | error de => simp [reconcile, hb, hgj, heq, hd] at hmem
      | ok u =>
        cases hcon : constructJobForLeviathanBuild b env.schemeOk env.now with
        | error _ => simp [reconcile, hb, hgj, heq, hd, hcon] at hmem
        | ok jc =>
          cases hcr : env.createResult with
          | error ce => simp [reconcile, hb, hgj, heq, hd, hcon, hcr] at hmem
          | ok u2 => simp [reconcile, hb, hgj, heq, hd, hcon, hcr] at hmem

/-- C5 (amended): only the match path reaches the status step; there the
pass issues a single status update that writes the resource back exactly as
it was fetched, with its stored status unchanged rather than recomputed; and
any pass that issued a status update issued no job create and no job
delete — create and delete passes return with their requeue before the
status step. -/
theorem c5_status_written_back_only_on_match (env : ClientEnv)
    (req : Request) (b : LeviathanBuild)
    (hb : env.getLvBuild = .ok b) :
    (∀ ej : Job, env.getJob = .ok ej →
      jobSpecsEqual ej b.spec.jobTemplate.spec = true →
      (reconcile env req).ops = [.statusUpdate b]) ∧
    (∀ x : LeviathanBuild, Op.statusUpdate x ∈ (reconcile env req).ops →
      x.status = b.status ∧
      opsHasCreate (reconcile env req).ops = false ∧
      opsHasDelete (reconcile env req).ops = false) := by
  constructor
  · intro ej hj heq
    exact (@reconcile_matched_ops env req b ej hb hj heq).1
  · intro x hmem
    obtain ⟨hx, hops⟩ := reconcile_statusUpdate_only_matched hb x hmem
    rw [hx, hops]
    exact ⟨rfl, rfl, rfl⟩

theorem c5_status_written_back_only_on_match_witness :
    envMatch.getLvBuild = .ok buildA ∧
    (reconcile envMatch reqA).ops = [.statusUpdate buildA] ∧
    buildA.status = buildA.status ∧
    opsHasCreate (reconcile envMatch reqA).ops = false ∧
    opsHasDelete (reconcile envMatch reqA).ops = false :=
  ⟨rfl,
   (c5_status_written_back_only_on_match envMatch reqA buildA rfl).1 jobA rfl
     (by decide),
   (c5_status_written_back_only_on_match envMatch reqA buildA rfl).2 buildA
     (by decide)⟩

/-- C5 counterexample: a fully successful create-when-absent pass issues a
create but no status update at all, against the claim that every pass
performing a job create also persists status. -/
theorem c5_counterexample :
    opsHasCreate (reconcile envNoJob reqA).ops = true ∧
    opsHasStatusUpdate (reconcile envNoJob reqA).ops = false := by decide

/-- C7 counterexample: the comparator reports the cluster-normalized spec
(absent field defaulted to 6) unequal to the template spec with the field
absent, against the claim that absent-vs-default-valued fields compare as
equal. -/
theorem c7_counterexample :
    specDefaulted = { specA with backoffLimit := some 6 } ∧
    jobSpecsEqual jobDefaulted specA = false := by decide

/-- C7 (amended): the comparator decides equality by deep structural
comparison over the execution spec only — the existing job's metadata never
influences the verdict — and it is semantic exactly for the registered
custom equalities (numerically equal quantities with different textual
formats compare equal); a field absent in one spec and present with the
defaulted value in the other compares as unequal. -/
theorem c7_semantic_spec_only_comparison (j1 j2 : Job) (d : JobSpec)
    (t : String) (bl : Option Int) (q1 q2 : Quantity)
    (hspec : j1.spec = j2.spec) :
    jobSpecsEqual j1 d = jobSpecsEqual j2 d ∧
    jobSpecsEqual j1 d = semanticDeepEqualJobSpec j1.spec d ∧
    (q1.milliValue = q2.milliValue →
      semanticDeepEqualJobSpec
        { template := t, backoffLimit := bl, resourceRequest := some q1 }
        { template := t, backoffLimit := bl, resourceRequest := some q2 } =
        true) ∧
    (∀ v : Int,
      semanticDeepEqualJobSpec
        { template := t, backoffLimit := none, resourceRequest := none }
        { template := t, backoffLimit := some v, resourceRequest := none } =
        false) := by
  refine ⟨?_, rfl, ?_, ?_⟩
  · rw [jobSpecsEqual, jobSpecsEqual, hspec]
  · intro h
    simp [semanticDeepEqualJobSpec, quantitySemanticEq, h]
  · intro v
    simp [semanticDeepEqualJobSpec]

theorem c7_semantic_spec_only_comparison_witness :
    jobSpecsEqual jobA specB = jobSpecsEqual jobAltMeta specB ∧
    semanticDeepEqualJobSpec
      { template := "cpu", backoffLimit := none,
        resourceRequest := some { milliValue := 1000, format := "1" } }
      { template := "cpu", backoffLimit := none,
        resourceRequest := some { milliValue := 1000, format := "1000m" } } =
      true ∧
    semanticDeepEqualJobSpec
      { template := "cpu", backoffLimit := none, resourceRequest := none }
      { template := "cpu", backoffLimit := some 6, resourceRequest := none } =
      false := by
  have h := c7_semantic_spec_only_comparison jobA jobAltMeta specB "cpu" none
    { milliValue := 1000, format := "1" }
    { milliValue := 1000, format := "1000m" } (by decide)
  exact ⟨h.1, h.2.2.1 rfl, h.2.2.2 6⟩

/-- C9: the field-index extractor returns the singleton owner name exactly
when the job carries a controller-owner reference whose API version and kind
match the LeviathanBuild type; with no controller owner, or an owner of a
different kind or API group, it returns the empty result. -/
theorem c9_index_extractor (j : Job) (n : String) :
    (jobOwnerIndexExtract j = [n] ↔
      ∃ ref : OwnerReference, getControllerOf j = some ref ∧
        ref.apiVersion = apiGVStr ∧ ref.kind = lvBuildKind ∧ ref.name = n) ∧
    (getControllerOf j = none → jobOwnerIndexExtract j = []) ∧
    (∀ ref : OwnerReference, getControllerOf j = some ref →
      ref.apiVersion ≠ apiGVStr ∨ ref.kind ≠ lvBuildKind →
      jobOwnerIndexExtract j = []) := by
  refine ⟨⟨?_, ?_⟩, ?_, ?_⟩
  · intro h
    cases hco : getControllerOf j with
    | none => simp [jobOwnerIndexExtract, hco] at h
    | some ref =>
      simp only [jobOwnerIndexExtract, hco] at h
      by_cases hmatch :
          (ref.apiVersion != apiGVStr || ref.kind != lvBuildKind) = true
      · rw [if_pos hmatch] at h
        exact absurd h (by simp)
      · rw [if_neg hmatch] at h
        simp only [Bool.or_eq_true, bne_iff_ne, not_or, not_not] at hmatch
        have hn : ref.name = n := by simpa using h
        exact ⟨ref, rfl, hmatch.1, hmatch.2, hn⟩
  · rintro ⟨ref, hco, ha, hk, hn⟩
    simp [jobOwnerIndexExtract, hco, ha, hk, hn]
  · intro hco
    simp [jobOwnerIndexExtract, hco]
  · intro ref hco hne
    have hcond : (ref.apiVersion != apiGVStr || ref.kind != lvBuildKind) = true := by
      rcases hne with h | h <;> simp [bne_iff_ne, h]
    simp [jobOwnerIndexExtract, hco, hcond]

theorem c9_index_extractor_witness :
    jobOwnerIndexExtract jobOwned = ["demo"] ∧
    jobOwnerIndexExtract jobA = [] ∧
    jobOwnerIndexExtract jobOtherOwner = [] :=
  ⟨(c9_index_extractor jobOwned "demo").1.mpr ⟨refDemo, rfl, rfl, rfl, rfl⟩,
   (c9_index_extractor jobA "x").2.1 rfl,
   (c9_index_extractor jobOtherOwner "x").2.2 refOther rfl
     (.inr (by decide))⟩

end JR
